import Mathlib

/-!
Verification of the NetBpfLoad eBPF ELF loader core.

This file gives a shallow embedding, translated from NetBpfLoad.cpp, of:
the selinux_context / pin_subdir token tables and the domain decoders,
the loader-version gate of loadProg, the per-location error folding of
loadAllElfObjects, the LE32 scalar-section reader readSectionUint, the
forward-compatible fixed-size record decoding used by readProgDefs and
createMaps, the pinned-map equivalence check mapMatchesExpectations, the
per-map gating and error routing of the createMaps loop, the program
gating of loadCodeSections, the relocation rewriting of applyRelo and
applyMapRelo, and the companion-relocation-section probe of
readCodeSections.  Kernel side effects (map creation, pinning, chmod,
chown) are oracled as explicit function parameters; everything else is
translated directly from the source.
-/

namespace NetBpfLoad

/-- Domain enumerates all selinux_context and pin_subdir values the loader
knows about, translated from the domain enum of NetBpfLoad.cpp. -/
inductive Domain where
  | unrecognized
  | unspecified
  | tethering
  | net_private
  | net_shared
  | netd_readonly
  | netd_shared
deriving DecidableEq, Repr

/-- AllDomains from NetBpfLoad.cpp: every domain except unrecognized,
including unspecified, in declaration order. -/
def AllDomains : List Domain :=
  [Domain.unspecified, Domain.tethering, Domain.net_private,
   Domain.net_shared, Domain.netd_readonly, Domain.netd_shared]

/-- Translation of lookupSelinuxContext: domain to selinux context token.
The unspec argument models the defaulted C parameter for unspecified. -/
def lookupSelinuxContext (d : Domain) (unspec : String) : String :=
  match d with
  | Domain.unspecified => unspec
  | Domain.tethering => "fs_bpf_tethering"
  | Domain.net_private => "fs_bpf_net_private"
  | Domain.net_shared => "fs_bpf_net_shared"
  | Domain.netd_readonly => "fs_bpf_netd_readonly"
  | Domain.netd_shared => "fs_bpf_netd_shared"
  | Domain.unrecognized => "(unrecognized)"

/-- Translation of lookupPinSubdir: domain to pin subdirectory token. -/
def lookupPinSubdir (d : Domain) (unspec : String) : String :=
  match d with
  | Domain.unspecified => unspec
  | Domain.tethering => "tethering/"
  | Domain.net_private => "net_private/"
  | Domain.net_shared => "net_shared/"
  | Domain.netd_readonly => "netd_readonly/"
  | Domain.netd_shared => "netd_shared/"
  | Domain.unrecognized => "(unrecognized)"

/-- Translation of getDomainFromSelinuxContext: scan AllDomains for a token
match; an unmatched token degrades to unspecified. -/
def getDomainFromSelinuxContext (s : String) : Domain :=
  match AllDomains.find? (fun d => s == lookupSelinuxContext d "") with
  | some d => d
  | none => Domain.unspecified

/-- Translation of getDomainFromPinSubdir: scan AllDomains for a token
match; an unmatched token is reported as unrecognized. -/
def getDomainFromPinSubdir (s : String) : Domain :=
  match AllDomains.find? (fun d => s == lookupPinSubdir d "") with
  | some d => d
  | none => Domain.unrecognized

/-- Outcome of the loader version gate of loadProg: skip corresponds to the
silent-skip returns of 0, fail to the return of -1 on an unmet required
minimum, proceed to falling through into object processing. -/
inductive GateResult where
  | skip
  | fail
  | proceed
deriving DecidableEq, Repr

/-- Translation of the version gating sequence of loadProg (the three
checks it performs, in source order, on the scalars read from the
bpfloader_min_ver, bpfloader_max_ver and bpfloader_min_required_ver
sections). -/
def loadProgVersionGate (ver minVer maxVer minReqVer : Nat) : GateResult :=
  if ver < minVer then GateResult.skip
  else if maxVer ≤ ver then GateResult.skip
  else if ver < minReqVer then GateResult.fail
  else GateResult.proceed

/-- Translation of the per-location loop of loadAllElfObjects.  Each list
element is the loadProg return value paired with the critical bit of one
processed .o file, in directory enumeration order. -/
def loadAllElfObjects (results : List (Int × Bool)) : Int :=
  results.foldl (fun retVal r => if r.1 ≠ 0 ∧ r.2 = true then r.1 else retVal) 0

/-- Sequence of errors of critical objects that failed, in order. -/
def criticalErrors (results : List (Int × Bool)) : List Int :=
  (results.filter (fun r => (r.1 != 0) && r.2)).map (fun r => r.1)

/-- First critical per-object error, or zero: the value the specification
text describes for loadAllElfObjects. -/
def firstCriticalError (results : List (Int × Bool)) : Int :=
  (criticalErrors results).headD 0

/-- Last critical per-object error, or zero. -/
def lastCriticalError (results : List (Int × Bool)) : Int :=
  (criticalErrors results).getLastD 0

/-- An ELF stream abstracted as its named sections: readSectionByName
returns the byte content of the first section whose name matches. -/
def readSectionByName (name : String) (elf : List (String × List Nat)) :
    Option (List Nat) :=
  match elf.find? (fun sec => sec.1 == name) with
  | some sec => some sec.2
  | none => none

/-- Translation of the LE32 decode in readSectionUint: the first four bytes
assembled exactly as the source does with shifts and additions. -/
def le32 (theBytes : List Nat) : Nat :=
  let v := theBytes.getD 3 0
  let v := (v <<< 8) + theBytes.getD 2 0
  let v := (v <<< 8) + theBytes.getD 1 0
  (v <<< 8) + theBytes.getD 0 0

/-- Translation of readSectionUint: read a named section as a little-endian
32-bit unsigned integer, defaulting when the section is absent or shorter
than four bytes. -/
def readSectionUint (name : String) (elf : List (String × List Nat))
    (defVal : Nat) : Nat :=
  match readSectionByName name elf with
  | none => defVal
  | some theBytes =>
    if theBytes.length < 4 then defVal else le32 theBytes

/-- Specification-side predicate: the first four bytes of the list encode
the value v as a little-endian 32-bit unsigned integer. -/
def encodesLE32 (theBytes : List Nat) (v : Nat) : Prop :=
  4 ≤ theBytes.length ∧ v < 4294967296 ∧
  theBytes.getD 0 0 = v % 256 ∧
  theBytes.getD 1 0 = v / 256 % 256 ∧
  theBytes.getD 2 0 = v / 65536 % 256 ∧
  theBytes.getD 3 0 = v / 16777216 % 256

/-- Translation of the record decoding loop shared by readProgDefs and the
map decoding part of createMaps: each record is a zero-initialized,
default-seeded in-memory struct (the byte vector init) whose prefix of
min(advSize, sizeof struct) bytes is overwritten from the file, with the
file cursor advancing by advSize between records. -/
def decodeRecordLoop (cursor : List Nat) (count advSize : Nat)
    (init : List Nat) : List (List Nat) :=
  match count with
  | 0 => []
  | Nat.succ n =>
    (cursor.take (min advSize init.length) ++ init.drop (min advSize init.length))
      :: decodeRecordLoop (cursor.drop advSize) n advSize init

/-- Translation of the section-level record decoding of readProgDefs and
createMaps: reject a section whose length is not a multiple of the
advertised record size, otherwise produce length / advSize records. -/
def decodeRecordArray (data : List Nat) (advSize : Nat) (init : List Nat) :
    Option (List (List Nat)) :=
  if data.length % advSize ≠ 0 then none
  else some (decodeRecordLoop data (data.length / advSize) advSize init)

/-- Packed kernel version as used by the BpfUtils helpers: major.minor.sub
packed into a 24-bit integer, major in the high bits. -/
def KVER (a b c : Nat) : Nat := (a <<< 16) + (b <<< 8) + c

def BPF_MAP_TYPE_HASH : Nat := 1

def BPF_MAP_TYPE_ARRAY : Nat := 2

def BPF_MAP_TYPE_DEVMAP : Nat := 14

def BPF_MAP_TYPE_DEVMAP_HASH : Nat := 25

def BPF_MAP_TYPE_RINGBUF : Nat := 27

def BPF_F_RDONLY_PROG : Nat := 128

/-- Fields of struct bpf_map_def that the createMaps loop and the
equivalence check consume; numeric fields are 32-bit unsigned values and
tokens are the fixed-width character arrays viewed as strings. -/
structure bpf_map_def where
  ty : Nat
  key_size : Nat
  value_size : Nat
  max_entries : Nat
  map_flags : Nat
  zero : Nat
  bpfloader_min_ver : Nat
  bpfloader_max_ver : Nat
  min_kver : Nat
  max_kver : Nat
  selinux_context : String
  pin_subdir : String
  shared : Bool
  mode : Nat
  uid : Nat
  gid : Nat
  ignore_on_eng : Bool
  ignore_on_user : Bool
  ignore_on_userdebug : Bool
  ignore_on_arm32 : Bool
  ignore_on_aarch64 : Bool
  ignore_on_x86_32 : Bool
  ignore_on_x86_64 : Bool
  ignore_on_riscv64 : Bool
deriving DecidableEq, Repr

/-- Fields of struct bpf_prog_def consumed by the loadCodeSections gating
sequence. -/
structure bpf_prog_def where
  min_kver : Nat
  max_kver : Nat
  bpfloader_min_ver : Nat
  bpfloader_max_ver : Nat
  selinux_context : String
  pin_subdir : String
  optional : Bool
  uid : Nat
  gid : Nat
  ignore_on_eng : Bool
  ignore_on_user : Bool
  ignore_on_userdebug : Bool
  ignore_on_arm32 : Bool
  ignore_on_aarch64 : Bool
  ignore_on_x86_32 : Bool
  ignore_on_x86_64 : Bool
  ignore_on_riscv64 : Bool
deriving DecidableEq, Repr

/-- Attribute quintuple of a bpf map file descriptor as returned by the
bpfGetFd... helpers, which return C ints. -/
structure FdMapAttrs where
  ty : Int
  keySize : Int
  valueSize : Int
  maxEntries : Int
  mapFlags : Int
deriving DecidableEq, Repr

/-- Immutable environment snapshot consumed by the gating code: loader
version, packed kernel version, page size, build type property and the
architecture and kernel bitness probes. -/
structure LoaderEnv where
  bpfloader_ver : Nat
  kvers : Nat
  pageSize : Nat
  buildType : String
  archArm : Bool
  archX86 : Bool
  archRiscV : Bool
  kernel64 : Bool
deriving DecidableEq, Repr

def isEng (env : LoaderEnv) : Bool := env.buildType == "eng"

def isUser (env : LoaderEnv) : Bool := env.buildType == "user"

def isUserdebug (env : LoaderEnv) : Bool := env.buildType == "userdebug"

/-- Translation of mapMatchesExpectations: on kernels below 4.14 pretend
the map matches; otherwise compare the file descriptor attribute quintuple
against the desired effective values (map_flags gain BPF_F_RDONLY_PROG for
devmap kinds, ringbuf max_entries is raised to at least the page size). -/
def mapMatchesExpectations (pageSize kvers : Nat) (attrs : FdMapAttrs)
    (mapDef : bpf_map_def) (ty : Nat) : Bool :=
  if kvers < KVER 4 14 0 then true
  else
    let desired_map_flags : Nat :=
      if ty = BPF_MAP_TYPE_DEVMAP ∨ ty = BPF_MAP_TYPE_DEVMAP_HASH then
        mapDef.map_flags ||| BPF_F_RDONLY_PROG
      else mapDef.map_flags
    let desired_max_entries : Nat :=
      if ty = BPF_MAP_TYPE_RINGBUF ∧ mapDef.max_entries < pageSize then pageSize
      else mapDef.max_entries
    decide (attrs.ty = (ty : Int)) &&
    decide (attrs.keySize = (mapDef.key_size : Int)) &&
    decide (attrs.valueSize = (mapDef.value_size : Int)) &&
    decide (attrs.maxEntries = (desired_max_entries : Int)) &&
    decide (attrs.mapFlags = (desired_map_flags : Int))

/-- Disjunction of the skip conditions of the createMaps loop, in source
order: loader version window, kernel version window, build-flavor ignore
bits, architecture and bitness ignore bits. -/
def mapGatedOut (env : LoaderEnv) (m : bpf_map_def) : Bool :=
  decide (env.bpfloader_ver < m.bpfloader_min_ver) ||
  decide (m.bpfloader_max_ver ≤ env.bpfloader_ver) ||
  decide (env.kvers < m.min_kver) ||
  decide (m.max_kver ≤ env.kvers) ||
  (m.ignore_on_eng && isEng env) ||
  (m.ignore_on_user && isUser env) ||
  (m.ignore_on_userdebug && isUserdebug env) ||
  (env.archArm && !env.kernel64 && m.ignore_on_arm32) ||
  (env.archArm && env.kernel64 && m.ignore_on_aarch64) ||
  (env.archX86 && !env.kernel64 && m.ignore_on_x86_32) ||
  (env.archX86 && env.kernel64 && m.ignore_on_x86_64) ||
  (env.archRiscV && m.ignore_on_riscv64)

/-- Translation of the effective map type substitutions of createMaps: a
devmap becomes a plain array on kernels below 4.14 and a devmap-hash
becomes a hash on kernels below 5.4. -/
def effectiveMapType (env : LoaderEnv) (m : bpf_map_def) : Nat :=
  let t := m.ty
  let t := if t = BPF_MAP_TYPE_DEVMAP ∧ env.kvers < KVER 4 14 0 then
    BPF_MAP_TYPE_ARRAY else t
  if t = BPF_MAP_TYPE_DEVMAP_HASH ∧ env.kvers < KVER 5 4 0 then
    BPF_MAP_TYPE_HASH else t

/-- Result of the createMaps loop: procAbort models the abort() on a
nonzero reserved byte, fail models the early error returns, ok carries the
ordered descriptor vector where none is the null descriptor pushed for a
skipped map. -/
inductive MapsResult where
  | procAbort
  | fail (e : Int)
  | ok (fds : List (Option Int))
deriving DecidableEq, Repr

/-- Translation of the per-map loop of createMaps.  The kernel and
filesystem interactions are oracled: acquire i yields the reused or
created descriptor for map i (error is the negated errno of a failed
open or BPF_MAP_CREATE), attrsOf i yields the descriptor attribute
quintuple, and pinResult i sel is the outcome of the pin, chmod and chown
steps given the decoded selinux context (none on success, some of the
negated errno on failure).  Everything else follows the source: abort on a
nonzero reserved byte, push a null descriptor and continue when gated out,
hard -ENOTDIR on an unrecognized pin_subdir, -ENOTUNIQ when the descriptor
does not match expectations. -/
def createMapsLoop (env : LoaderEnv) (acquire : Nat → Except Int Int)
    (attrsOf : Nat → FdMapAttrs) (pinResult : Nat → Domain → Option Int) :
    List bpf_map_def → Nat → MapsResult
  | [], _ => MapsResult.ok []
  | m :: rest, i =>
    if m.zero ≠ 0 then MapsResult.procAbort
    else if mapGatedOut env m then
      match createMapsLoop env acquire attrsOf pinResult rest (i + 1) with
      | MapsResult.ok fds => MapsResult.ok (none :: fds)
      | r => r
    else
      let ty := effectiveMapType env m
      let sel := getDomainFromSelinuxContext m.selinux_context
      if getDomainFromPinSubdir m.pin_subdir = Domain.unrecognized then
        MapsResult.fail (-20)
      else
        match acquire i with
        | Except.error e => MapsResult.fail e
        | Except.ok fd =>
          if mapMatchesExpectations env.pageSize env.kvers (attrsOf i) m ty then
            match pinResult i sel with
            | some e => MapsResult.fail e
            | none =>
              match createMapsLoop env acquire attrsOf pinResult rest (i + 1) with
              | MapsResult.ok fds => MapsResult.ok (some fd :: fds)
              | r => r
          else MapsResult.fail (-76)

/-- Outcome of the per-section decision sequence of loadCodeSections:
missingDef models the -EINVAL return on an absent program definition, skip
the gating continues, fail the -ENOTDIR return on an unrecognized
pin_subdir, load the fall-through into the load-and-pin code. -/
inductive ProgGate where
  | missingDef
  | skip
  | fail (e : Int)
  | load
deriving DecidableEq, Repr

/-- Disjunction of the skip conditions of loadCodeSections, in source
order: kernel version window, loader version window, build-flavor ignore
bits, architecture and bitness ignore bits. -/
def progGatedOut (env : LoaderEnv) (p : bpf_prog_def) : Bool :=
  decide (env.kvers < p.min_kver) ||
  decide (p.max_kver ≤ env.kvers) ||
  decide (env.bpfloader_ver < p.bpfloader_min_ver) ||
  decide (p.bpfloader_max_ver ≤ env.bpfloader_ver) ||
  (p.ignore_on_eng && isEng env) ||
  (p.ignore_on_user && isUser env) ||
  (p.ignore_on_userdebug && isUserdebug env) ||
  (env.archArm && !env.kernel64 && p.ignore_on_arm32) ||
  (env.archArm && env.kernel64 && p.ignore_on_aarch64) ||
  (env.archX86 && !env.kernel64 && p.ignore_on_x86_32) ||
  (env.archX86 && env.kernel64 && p.ignore_on_x86_64) ||
  (env.archRiscV && p.ignore_on_riscv64)

/-- Translation of the decision sequence at the head of the
loadCodeSections loop body for one code section. -/
def progGateStep (env : LoaderEnv) (pd : Option bpf_prog_def) : ProgGate :=
  match pd with
  | none => ProgGate.missingDef
  | some p =>
    if progGatedOut env p then ProgGate.skip
    else if getDomainFromPinSubdir p.pin_subdir = Domain.unrecognized then
      ProgGate.fail (-20)
    else ProgGate.load

/-- One eBPF instruction as struct bpf_insn: opcode byte, destination and
source register nibbles, 16-bit offset and 32-bit immediate. -/
structure BpfInsn where
  code : Nat
  dst_reg : Nat
  src_reg : Nat
  off : Int
  imm : Int
deriving DecidableEq, Repr

/-- Opcode BPF_LD ||| BPF_IMM ||| BPF_DW, the 64-bit immediate load. -/
def BPF_LD_IMM_DW : Nat := 24

def BPF_PSEUDO_MAP_FD : Nat := 1

def sizeof_bpf_insn : Nat := 8

/-- One ELF64 REL relocation record. -/
structure Elf64_Rel where
  r_offset : Nat
  r_info : Nat
deriving DecidableEq, Repr

def ELF64_R_SYM (info : Nat) : Nat := info >>> 32

/-- Translation of applyRelo: locate the instruction at byte offset
divided by the instruction size; when its opcode is the 64-bit immediate
load, splice the map descriptor into its immediate field and tag the
source register as a pseudo map fd, otherwise log and leave the
instructions unchanged. -/
def applyRelo (insns : List BpfInsn) (offset : Nat) (fd : Int) :
    List BpfInsn :=
  let insnIndex := offset / sizeof_bpf_insn
  match insns.get? insnIndex with
  | none => insns
  | some insn =>
    if insn.code ≠ BPF_LD_IMM_DW then insns
    else insns.set insnIndex
      { insn with imm := fd, src_reg := BPF_PSEUDO_MAP_FD }

/-- Translation of the record loop of applyMapRelo for one code section:
symNameOf is the symbol-table lookup getSymNameByIdx (none models its
failure, which abandons the remaining records), mapNames the symbol names
of the maps section in order, mapFds the aligned descriptor vector.  Each
record resolves its symbol, scans mapNames for the first match and applies
the relocation with that map descriptor; a record with no matching map is
skipped. -/
def applyMapReloRecords (symNameOf : Nat → Option String)
    (mapNames : List String) (mapFds : List Int) :
    List BpfInsn → List Elf64_Rel → List BpfInsn
  | insns, [] => insns
  | insns, r :: rest =>
    match symNameOf (ELF64_R_SYM r.r_info) with
    | none => insns
    | some symName =>
      match mapNames.findIdx? (fun n => n == symName) with
      | none => applyMapReloRecords symNameOf mapNames mapFds insns rest
      | some j =>
        applyMapReloRecords symNameOf mapNames mapFds
          (applyRelo insns r.r_offset (mapFds.getD j (-1))) rest

/-- Translation of the companion-relocation-section probe condition of
readCodeSections: the source guards the read of the next section header
with the conjunction of a nonempty code section and i < entries, where i
is the loop index and entries the section header count. -/
def relSectionProbeAttempted (dataSize i entries : Nat) : Bool :=
  decide (0 < dataSize) && decide (i < entries)

/-- Index of the section header the probe reads: the next header, i + 1. -/
def relSectionProbeIndex (i : Nat) : Nat := i + 1

/-- Sample environment for concrete witnesses: loader version 50 on a
64-bit x86 user build with kernel 4.14.0 and 4096-byte pages. -/
def envSample : LoaderEnv where
  bpfloader_ver := 50
  kvers := 265728
  pageSize := 4096
  buildType := "user"
  archArm := false
  archX86 := true
  archRiscV := false
  kernel64 := true

/-- Sample hash map definition that passes every gate. -/
def mapSample : bpf_map_def where
  ty := 1
  key_size := 4
  value_size := 8
  max_entries := 16
  map_flags := 0
  zero := 0
  bpfloader_min_ver := 0
  bpfloader_max_ver := 100
  min_kver := 0
  max_kver := 4294967295
  selinux_context := ""
  pin_subdir := ""
  shared := false
  mode := 384
  uid := 0
  gid := 0
  ignore_on_eng := false
  ignore_on_user := false
  ignore_on_userdebug := false
  ignore_on_arm32 := false
  ignore_on_aarch64 := false
  ignore_on_x86_32 := false
  ignore_on_x86_64 := false
  ignore_on_riscv64 := false

/-- Sample map gated out by the loader version window. -/
def mapGatedSample : bpf_map_def :=
  { mapSample with bpfloader_min_ver := 100 }

/-- Sample map carrying an unrecognized pin_subdir token. -/
def mapBadPinSample : bpf_map_def :=
  { mapSample with pin_subdir := "bogus/" }

/-- Sample map carrying an unrecognized selinux_context token. -/
def mapSelinuxSample : bpf_map_def :=
  { mapSample with selinux_context := "bogus_ctx" }

/-- Sample program definition carrying an unrecognized pin_subdir token. -/
def progBadPinSample : bpf_prog_def where
  min_kver := 0
  max_kver := 4294967295
  bpfloader_min_ver := 0
  bpfloader_max_ver := 100
  selinux_context := ""
  pin_subdir := "bogus/"
  optional := false
  uid := 0
  gid := 0
  ignore_on_eng := false
  ignore_on_user := false
  ignore_on_userdebug := false
  ignore_on_arm32 := false
  ignore_on_aarch64 := false
  ignore_on_x86_32 := false
  ignore_on_x86_64 := false
  ignore_on_riscv64 := false

/-- Descriptor attributes agreeing with mapSample. -/
def attrsMatch : FdMapAttrs where
  ty := 1
  keySize := 4
  valueSize := 8
  maxEntries := 16
  mapFlags := 0

/-- Descriptor attributes disagreeing with mapSample in the value size. -/
def attrsMismatch : FdMapAttrs where
  ty := 1
  keySize := 4
  valueSize := 16
  maxEntries := 16
  mapFlags := 0

def attrsOfMatch : Nat → FdMapAttrs := fun _ => attrsMatch

def attrsOfMismatch : Nat → FdMapAttrs := fun _ => attrsMismatch

def acquireSample : Nat → Except Int Int := fun _ => Except.ok 5

def pinSample : Nat → Domain → Option Int := fun _ _ => none

/-- Sample instruction stream: a generic instruction followed by a 64-bit
immediate load. -/
def insnLdImmDw : BpfInsn where
  code := 24
  dst_reg := 1
  src_reg := 0
  off := 0
  imm := 0

def insnOther : BpfInsn where
  code := 183
  dst_reg := 0
  src_reg := 0
  off := 0
  imm := 0

def symNameSample : Nat → Option String :=
  fun k => if k = 3 then some "mapA" else none

/-- Sample relocation record: byte offset 8 (instruction index 1), symbol
index 3 in the high half of r_info. -/
def relSample : Elf64_Rel where
  r_offset := 8
  r_info := 3 <<< 32

/-- Claim C1, counterexample: the claim states that loadProg proceeds iff
the loader version lies in the half-open window and fails iff it is below
the required minimum.  At loader version 10 with window [0, 100) and
required minimum 50 the version lies inside the window yet the gate fails
rather than proceeds; at loader version 3 with window [10, 100) and
required minimum 5 the version is below the required minimum yet the gate
silently skips rather than fails. -/
theorem loadProgVersionGate_claim_false :
    (0 ≤ 10 ∧ 10 < 100 ∧
      loadProgVersionGate 10 0 100 50 ≠ GateResult.proceed ∧
      loadProgVersionGate 10 0 100 50 = GateResult.fail) ∧
    (3 < 5 ∧ loadProgVersionGate 3 10 100 5 = GateResult.skip ∧
      loadProgVersionGate 3 10 100 5 ≠ GateResult.fail) := by
  decide

/-- Claim C1, amended: loadProg silently skips (returns success without
loading) iff the loader version lies outside the half-open window
[min_ver, max_ver); it fails iff the version lies inside the window but
below min_required_ver (the window checks run first); it proceeds iff the
version lies inside the window and meets the required minimum. -/
theorem loadProgVersionGate_spec (ver minVer maxVer minReqVer : Nat) :
    (loadProgVersionGate ver minVer maxVer minReqVer = GateResult.proceed ↔
      minVer ≤ ver ∧ ver < maxVer ∧ minReqVer ≤ ver) ∧
    (loadProgVersionGate ver minVer maxVer minReqVer = GateResult.skip ↔
      ver < minVer ∨ maxVer ≤ ver) ∧
    (loadProgVersionGate ver minVer maxVer minReqVer = GateResult.fail ↔
      minVer ≤ ver ∧ ver < maxVer ∧ ver < minReqVer) := by
  unfold loadProgVersionGate
  refine ⟨?_, ?_, ?_⟩ <;> split_ifs <;> simp_all

theorem criticalErrors_cons (r : Int × Bool) (rest : List (Int × Bool)) :
    criticalErrors (r :: rest) =
      if r.1 ≠ 0 ∧ r.2 = true then r.1 :: criticalErrors rest
      else criticalErrors rest := by
  by_cases h : r.1 ≠ 0 ∧ r.2 = true
  · have hb : ((r.1 != 0) && r.2) = true := by
      simp [bne_iff_ne, h.1, h.2]
    simp [criticalErrors, List.filter_cons, hb, h]
  · have hb : ((r.1 != 0) && r.2) = false := by
      rcases not_and_or.mp h with h1 | h2
      · simp [bne_eq_false_iff_eq, not_ne_iff.mp h1]
      · simp [eq_false_of_ne_true h2]
    simp [criticalErrors, List.filter_cons, hb, h]

theorem loadAllElfObjects_foldl (results : List (Int × Bool)) :
    ∀ acc : Int,
      results.foldl
        (fun retVal r => if r.1 ≠ 0 ∧ r.2 = true then r.1 else retVal) acc =
      (criticalErrors results).getLastD acc := by
  induction results with
  | nil => intro acc; simp [criticalErrors]
  | cons r rest ih =>
    intro acc
    rw [List.foldl_cons, criticalErrors_cons]
    by_cases h : r.1 ≠ 0 ∧ r.2 = true
    · simp only [if_pos h]
      rw [ih r.1, List.getLastD_cons]
    · simp only [if_neg h]
      exact ih acc

/-- Claim C2, counterexample: with two critical objects failing with the
errors -2 then -3, loadAllElfObjects returns -3, the last critical error,
not the first critical error -2 that the claim describes. -/
theorem loadAllElfObjects_claim_false :
    loadAllElfObjects [((-2 : Int), true), ((-3 : Int), true)] = -3 ∧
    firstCriticalError [((-2 : Int), true), ((-3 : Int), true)] = -2 ∧
    loadAllElfObjects [((-2 : Int), true), ((-3 : Int), true)] ≠
      firstCriticalError [((-2 : Int), true), ((-3 : Int), true)] := by
  decide

/-- Claim C2, amended: for every search location the value returned by
loadAllElfObjects is the most recent (last) critical per-object error
encountered, each later critical error overwriting the earlier one;
non-critical failures never change the return value and zero is returned
when no critical object failed. -/
theorem loadAllElfObjects_spec (results : List (Int × Bool)) :
    loadAllElfObjects results = lastCriticalError results := by
  unfold loadAllElfObjects lastCriticalError
  exact loadAllElfObjects_foldl results 0

/-- Claim C8: in readCodeSections the read of the next section header is
guarded only by the trivially true loop bound i < entries, so for a
nonempty code section that is the last section (index 0 of a 1-entry
header table) the probe is attempted although the accessed header index
i + 1 = entries lies outside the table: an out-of-bounds access. -/
theorem readCodeSections_rel_probe_oob :
    relSectionProbeAttempted 8 0 1 = true ∧
    relSectionProbeIndex 0 = 1 ∧ ¬ relSectionProbeIndex 0 < 1 := by
  decide

/-- Claim C10: for every domain in AllDomains the token tables round-trip
through both decoders; in particular the empty token maps back to the
unspecified domain. -/
theorem domain_token_roundtrip (d : Domain) (h : d ∈ AllDomains) :
    getDomainFromSelinuxContext (lookupSelinuxContext d "") = d ∧
    getDomainFromPinSubdir (lookupPinSubdir d "") = d := by
  cases d
  case unrecognized => exact absurd h (by decide)
  all_goals exact ⟨by decide, by decide⟩

/-- Claim C10, witness: the round-trip applied to the tethering domain and
to the unspecified domain with its empty token. -/
theorem domain_token_roundtrip_witness :
    (Domain.tethering ∈ AllDomains ∧
      getDomainFromSelinuxContext (lookupSelinuxContext Domain.tethering "") =
        Domain.tethering) ∧
    (Domain.unspecified ∈ AllDomains ∧
      getDomainFromPinSubdir (lookupPinSubdir Domain.unspecified "") =
        Domain.unspecified) :=
  ⟨⟨by decide, (domain_token_roundtrip Domain.tethering (by decide)).1⟩,
   ⟨by decide, (domain_token_roundtrip Domain.unspecified (by decide)).2⟩⟩

instance (theBytes : List Nat) (v : Nat) : Decidable (encodesLE32 theBytes v) := by
  unfold encodesLE32
  exact inferInstance

theorem le32_eq_iff_encodes (theBytes : List Nat) (v : Nat)
    (hlen : 4 ≤ theBytes.length)
    (hb : ∀ i, i < theBytes.length → theBytes.getD i 0 < 256) :
    le32 theBytes = v ↔ encodesLE32 theBytes v := by
  have h0 := hb 0 (by omega)
  have h1 := hb 1 (by omega)
  have h2 := hb 2 (by omega)
  have h3 := hb 3 (by omega)
  simp only [le32, encodesLE32, Nat.shiftLeft_eq]
  have e : (2 : Nat) ^ 8 = 256 := by norm_num
  rw [e]
  omega

/-- Claim C9: readSectionUint equals a value exactly when the named
section is present with at least four bytes whose first four bytes encode
that value little-endian; otherwise (section absent or shorter than four
bytes) it equals the caller-supplied default. -/
theorem readSectionUint_roundtrip (name : String)
    (elf : List (String × List Nat)) (d v : Nat)
    (hb : ∀ sec ∈ elf, ∀ b ∈ sec.2, b < 256) :
    readSectionUint name elf d = v ↔
      (∃ theBytes, readSectionByName name elf = some theBytes ∧
        encodesLE32 theBytes v) ∨
      ((readSectionByName name elf = none ∨
        ∃ theBytes, readSectionByName name elf = some theBytes ∧
          theBytes.length < 4) ∧ v = d) := by
  rcases hf : elf.find? (fun sec => sec.1 == name) with _ | sec
  · have hsec : readSectionByName name elf = none := by
      simp [readSectionByName, hf]
    simp only [readSectionUint, hsec]
    simp [eq_comm]
  · have hsec : readSectionByName name elf = some sec.2 := by
      simp [readSectionByName, hf]
    have hmem : sec ∈ elf := List.mem_of_find?_eq_some hf
    have hidx : ∀ i, i < sec.2.length → sec.2.getD i 0 < 256 := by
      intro i hi
      rw [List.getD_eq_getElem sec.2 0 hi]
      exact hb sec hmem _ (List.getElem_mem hi)
    simp only [readSectionUint, hsec, Option.some.injEq]
    by_cases hlen : sec.2.length < 4
    · rw [if_pos hlen]
      constructor
      · intro h
        exact Or.inr ⟨Or.inr ⟨sec.2, rfl, hlen⟩, h.symm⟩
      · rintro (⟨b, hbeq, henc⟩ | ⟨_, rfl⟩)
        · cases hbeq
          exact absurd henc.1 (by omega)
        · rfl
    · rw [if_neg hlen]
      push_neg at hlen
      rw [le32_eq_iff_encodes sec.2 v hlen hidx]
      constructor
      · intro h
        exact Or.inl ⟨sec.2, rfl, h⟩
      · rintro (⟨b, hbeq, henc⟩ | ⟨hcontra, rfl⟩)
        · cases hbeq
          exact henc
        · rcases hcontra with hnone | ⟨b, hbeq, hshort⟩
          · exact absurd hnone (by simp)
          · cases hbeq
            exact absurd hshort (by omega)

/-- Claim C9, witness: a four-byte section encoding 42 decodes to 42, and
an absent section yields the default 7. -/
theorem readSectionUint_roundtrip_witness :
    readSectionUint "bpfloader_min_ver"
      [("bpfloader_min_ver", [42, 0, 0, 0])] 7 = 42 ∧
    readSectionUint "bpfloader_max_ver"
      [("bpfloader_min_ver", [42, 0, 0, 0])] 7 = 7 :=
  ⟨(readSectionUint_roundtrip "bpfloader_min_ver"
      [("bpfloader_min_ver", [42, 0, 0, 0])] 7 42 (by decide)).mpr
      (Or.inl ⟨[42, 0, 0, 0], by decide, by decide⟩),
   (readSectionUint_roundtrip "bpfloader_max_ver"
      [("bpfloader_min_ver", [42, 0, 0, 0])] 7 7 (by decide)).mpr
      (Or.inr ⟨Or.inl (by decide), rfl⟩)⟩

theorem decodeRecordLoop_length (advSize : Nat) (init : List Nat) :
    ∀ (count : Nat) (cursor : List Nat),
      (decodeRecordLoop cursor count advSize init).length = count := by
  intro count
  induction count with
  | zero => intro cursor; simp [decodeRecordLoop]
  | succ n ih => intro cursor; simp [decodeRecordLoop, ih]

theorem decodeRecordLoop_getD (advSize : Nat) (init : List Nat) :
    ∀ (count : Nat) (cursor : List Nat) (i : Nat), i < count →
      (decodeRecordLoop cursor count advSize init).getD i [] =
        ((cursor.drop (i * advSize)).take (min advSize init.length)) ++
          init.drop (min advSize init.length) := by
  intro count
  induction count with
  | zero => intro cursor i hi; omega
  | succ n ih =>
    intro cursor i hi
    cases i with
    | zero => simp [decodeRecordLoop]
    | succ k =>
      have hrec := ih (cursor.drop advSize) k (by omega)
      have harith : advSize + k * advSize = (k + 1) * advSize := by ring
      simp only [decodeRecordLoop, List.getD_cons_succ]
      rw [hrec, List.drop_drop, harith]

/-- Claim C5: record decoding for the maps and progs sections fails
exactly when the section length is not a multiple of the advertised record
size; otherwise it yields length / advSize records, the i-th record being
the default-seeded in-memory struct whose prefix of min(advertised size,
struct size) bytes is the file content at cursor position i * advSize. -/
theorem decodeRecordArray_spec (data : List Nat) (advSize : Nat)
    (init : List Nat) (_hS : 0 < advSize) :
    (decodeRecordArray data advSize init = none ↔
      data.length % advSize ≠ 0) ∧
    (∀ recs, decodeRecordArray data advSize init = some recs →
      recs.length = data.length / advSize ∧
      ∀ i, i < recs.length →
        recs.getD i [] =
          ((data.drop (i * advSize)).take (min advSize init.length)) ++
            init.drop (min advSize init.length)) := by
  constructor
  · unfold decodeRecordArray
    split_ifs with h <;> simp [h]
  · intro recs hrecs
    unfold decodeRecordArray at hrecs
    by_cases h : data.length % advSize ≠ 0
    · rw [if_pos h] at hrecs
      exact absurd hrecs (by simp)
    · rw [if_neg h] at hrecs
      injection hrecs with he
      subst he
      refine ⟨decodeRecordLoop_length advSize init _ data, ?_⟩
      intro i hi
      rw [decodeRecordLoop_length advSize init _ data] at hi
      exact decodeRecordLoop_getD advSize init _ data i hi

/-- Claim C5, witness: a six-byte section with advertised record size 3
and a five-byte in-memory struct decodes to two records, the second
taking bytes from cursor position 3 and keeping the seeded defaults in
its suffix, while a five-byte section is rejected. -/
theorem decodeRecordArray_spec_witness :
    decodeRecordArray [1, 2, 3, 4, 5] 3 [9, 9, 9, 9, 9] = none ∧
    ([[1, 2, 3, 9, 9], [4, 5, 6, 9, 9]] : List (List Nat)).length =
      ([1, 2, 3, 4, 5, 6] : List Nat).length / 3 ∧
    ([[1, 2, 3, 9, 9], [4, 5, 6, 9, 9]] : List (List Nat)).getD 1 [] =
      ((([1, 2, 3, 4, 5, 6] : List Nat).drop (1 * 3)).take
        (min 3 ([9, 9, 9, 9, 9] : List Nat).length)) ++
        ([9, 9, 9, 9, 9] : List Nat).drop
          (min 3 ([9, 9, 9, 9, 9] : List Nat).length) :=
  ⟨(decodeRecordArray_spec [1, 2, 3, 4, 5] 3 [9, 9, 9, 9, 9]
      (by decide)).1.mpr (by decide),
   ((decodeRecordArray_spec [1, 2, 3, 4, 5, 6] 3 [9, 9, 9, 9, 9]
      (by decide)).2 [[1, 2, 3, 9, 9], [4, 5, 6, 9, 9]] (by decide)).1,
   ((decodeRecordArray_spec [1, 2, 3, 4, 5, 6] 3 [9, 9, 9, 9, 9]
      (by decide)).2 [[1, 2, 3, 9, 9], [4, 5, 6, 9, 9]] (by decide)).2
     1 (by decide)⟩

/-- Claim C3: on kernels below 4.14 the equivalence check is skipped and
success assumed; on kernels at least 4.14 it returns true exactly when the
descriptor quintuple equals the desired effective values (ringbuf
max_entries raised to at least the page size, devmap kinds gaining
BPF_F_RDONLY_PROG); and a non-skipped map whose descriptor fails the check
makes the createMaps loop fail with -ENOTUNIQ. -/
theorem mapMatchesExpectations_spec (env : LoaderEnv) (attrs : FdMapAttrs)
    (m : bpf_map_def) (ty : Nat) (acquire : Nat → Except Int Int)
    (attrsOf : Nat → FdMapAttrs) (pinResult : Nat → Domain → Option Int) :
    (env.kvers < KVER 4 14 0 →
      mapMatchesExpectations env.pageSize env.kvers attrs m ty = true) ∧
    (KVER 4 14 0 ≤ env.kvers →
      (mapMatchesExpectations env.pageSize env.kvers attrs m ty = true ↔
        attrs.ty = (ty : Int) ∧
        attrs.keySize = (m.key_size : Int) ∧
        attrs.valueSize = (m.value_size : Int) ∧
        attrs.maxEntries =
          ((if ty = BPF_MAP_TYPE_RINGBUF ∧ m.max_entries < env.pageSize then
              env.pageSize
            else m.max_entries : Nat) : Int) ∧
        attrs.mapFlags =
          ((if ty = BPF_MAP_TYPE_DEVMAP ∨ ty = BPF_MAP_TYPE_DEVMAP_HASH then
              m.map_flags ||| BPF_F_RDONLY_PROG
            else m.map_flags : Nat) : Int))) ∧
    (∀ fd, m.zero = 0 → mapGatedOut env m = false →
      getDomainFromPinSubdir m.pin_subdir ≠ Domain.unrecognized →
      acquire 0 = Except.ok fd →
      mapMatchesExpectations env.pageSize env.kvers (attrsOf 0) m
        (effectiveMapType env m) = false →
      createMapsLoop env acquire attrsOf pinResult [m] 0 =
        MapsResult.fail (-76)) := by
  refine ⟨?_, ?_, ?_⟩
  · intro h
    unfold mapMatchesExpectations
    rw [if_pos h]
  · intro h
    unfold mapMatchesExpectations
    rw [if_neg (by omega)]
    simp only [Bool.and_eq_true, decide_eq_true_eq]
    tauto
  · intro fd hz hg hp hacq hmm
    simp only [createMapsLoop, hacq, hmm]
    rw [if_neg (by simp [hz]), if_neg (by simp [hg]), if_neg hp]
    simp

/-- Claim C3, witness: on a 4.14 kernel a map whose pinned descriptor has
value size 16 instead of the declared 8 makes the createMaps loop fail
with -ENOTUNIQ. -/
theorem mapMatchesExpectations_spec_witness :
    createMapsLoop envSample acquireSample attrsOfMismatch pinSample
      [mapSample] 0 = MapsResult.fail (-76) :=
  (mapMatchesExpectations_spec envSample attrsMismatch mapSample 1
      acquireSample attrsOfMismatch pinSample).2.2 5 rfl (by decide)
    (by decide) rfl (by decide)

theorem createMapsLoop_ok_align (env : LoaderEnv)
    (acquire : Nat → Except Int Int) (attrsOf : Nat → FdMapAttrs)
    (pinResult : Nat → Domain → Option Int) :
    ∀ (maps : List bpf_map_def) (i0 : Nat) (fds : List (Option Int)),
      createMapsLoop env acquire attrsOf pinResult maps i0 =
        MapsResult.ok fds →
      fds.length = maps.length ∧
      ∀ k m, maps[k]? = some m →
        (mapGatedOut env m = true → fds[k]? = some none) ∧
        (mapGatedOut env m = false →
          ∃ fd, acquire (i0 + k) = Except.ok fd ∧
            fds[k]? = some (some fd)) := by
  intro maps
  induction maps with
  | nil =>
    intro i0 fds h
    simp only [createMapsLoop] at h
    injection h with he
    subst he
    exact ⟨rfl, fun k m hk => by simp at hk⟩
  | cons m rest ih =>
    intro i0 fds h
    simp only [createMapsLoop] at h
    by_cases hz : m.zero ≠ 0
    · rw [if_pos hz] at h
      cases h
    · rw [if_neg hz] at h
      by_cases hg : mapGatedOut env m = true
      · rw [if_pos hg] at h
        rcases hrec : createMapsLoop env acquire attrsOf pinResult rest (i0 + 1)
          with _ | e | fds2
        · rw [hrec] at h; cases h
        · rw [hrec] at h; cases h
        · rw [hrec] at h
          injection h with he
          subst he
          obtain ⟨hlen, hspec⟩ := ih (i0 + 1) fds2 hrec
          refine ⟨by simp [hlen], ?_⟩
          intro k mk hk
          cases k with
          | zero =>
            simp only [List.getElem?_cons_zero, Option.some.injEq] at hk
            subst hk
            constructor
            · intro _; simp
            · intro hgf
              rw [hgf] at hg
              cases hg
          | succ k2 =>
            simp only [List.getElem?_cons_succ] at hk
            obtain ⟨h1, h2⟩ := hspec k2 mk hk
            constructor
            · intro hgt
              simpa using h1 hgt
            · intro hgf
              obtain ⟨fd, hfd, hget⟩ := h2 hgf
              refine ⟨fd, ?_, by simpa using hget⟩
              have harith : i0 + (k2 + 1) = i0 + 1 + k2 := by omega
              rw [harith]
              exact hfd
      · rw [if_neg hg] at h
        rw [Bool.not_eq_true] at hg
        by_cases hp : getDomainFromPinSubdir m.pin_subdir = Domain.unrecognized
        · rw [if_pos hp] at h
          cases h
        · rw [if_neg hp] at h
          rcases hacq : acquire i0 with e | fd
          · simp only [hacq] at h
            cases h
          · simp only [hacq] at h
            by_cases hmm : mapMatchesExpectations env.pageSize env.kvers
                (attrsOf i0) m (effectiveMapType env m) = true
            · rw [if_pos hmm] at h
              rcases hpin : pinResult i0
                  (getDomainFromSelinuxContext m.selinux_context) with _ | e
              · simp only [hpin] at h
                rcases hrec : createMapsLoop env acquire attrsOf pinResult
                    rest (i0 + 1) with _ | e | fds2
                · rw [hrec] at h; cases h
                · rw [hrec] at h; cases h
                · rw [hrec] at h
                  injection h with he
                  subst he
                  obtain ⟨hlen, hspec⟩ := ih (i0 + 1) fds2 hrec
                  refine ⟨by simp [hlen], ?_⟩
                  intro k mk hk
                  cases k with
                  | zero =>
                    simp only [List.getElem?_cons_zero, Option.some.injEq] at hk
                    subst hk
                    constructor
                    · intro hgt
                      rw [hgt] at hg
                      cases hg
                    · intro _
                      exact ⟨fd, by simpa using hacq, by simp⟩
                  | succ k2 =>
                    simp only [List.getElem?_cons_succ] at hk
                    obtain ⟨h1, h2⟩ := hspec k2 mk hk
                    constructor
                    · intro hgt
                      simpa using h1 hgt
                    · intro hgf
                      obtain ⟨fd2, hfd2, hget2⟩ := h2 hgf
                      refine ⟨fd2, ?_, by simpa using hget2⟩
                      have harith : i0 + (k2 + 1) = i0 + 1 + k2 := by omega
                      rw [harith]
                      exact hfd2
              · simp only [hpin] at h
                cases h
            · rw [if_neg hmm] at h
              cases h

/-- Claim C6: whenever the createMaps loop completes successfully, the
descriptor vector has one entry per map definition, every gated-out map
contributes a null descriptor at its own index and every processed map
contributes its acquired descriptor at its own index, so index-based
relocation resolution stays aligned with the map symbol order. -/
theorem createMaps_gated_null_alignment (env : LoaderEnv)
    (acquire : Nat → Except Int Int) (attrsOf : Nat → FdMapAttrs)
    (pinResult : Nat → Domain → Option Int) (maps : List bpf_map_def)
    (fds : List (Option Int))
    (h : createMapsLoop env acquire attrsOf pinResult maps 0 =
      MapsResult.ok fds) :
    fds.length = maps.length ∧
    ∀ k m, maps[k]? = some m →
      (mapGatedOut env m = true → fds[k]? = some none) ∧
      (mapGatedOut env m = false →
        ∃ fd, acquire k = Except.ok fd ∧ fds[k]? = some (some fd)) := by
  obtain ⟨hlen, hspec⟩ :=
    createMapsLoop_ok_align env acquire attrsOf pinResult maps 0 fds h
  refine ⟨hlen, ?_⟩
  intro k m hk
  simpa using hspec k m hk

/-- Claim C6, witness: a gated-out map followed by a processed map yields
the aligned vector with a null descriptor at index 0 and the acquired
descriptor 5 at index 1. -/
theorem createMaps_gated_null_alignment_witness :
    createMapsLoop envSample acquireSample attrsOfMatch pinSample
      [mapGatedSample, mapSample] 0 = MapsResult.ok [none, some 5] ∧
    ([none, some (5 : Int)] : List (Option Int))[0]? = some none ∧
    ∃ fd, acquireSample 1 = Except.ok fd ∧
      ([none, some (5 : Int)] : List (Option Int))[1]? = some (some fd) :=
  ⟨by decide,
   ((createMaps_gated_null_alignment envSample acquireSample attrsOfMatch
       pinSample [mapGatedSample, mapSample] [none, some 5] (by decide)).2
     0 mapGatedSample (by decide)).1 (by decide),
   ((createMaps_gated_null_alignment envSample acquireSample attrsOfMatch
       pinSample [mapGatedSample, mapSample] [none, some 5] (by decide)).2
     1 mapSample (by decide)).2 (by decide)⟩

/-- Claim C7: a pin_subdir token matching no table entry decodes to the
unrecognized domain and makes processing of the declaring item fail hard
with -ENOTDIR, both for maps in the createMaps loop and for programs in
the loadCodeSections gate; a selinux_context token matching no table entry
instead degrades to the unspecified domain and processing continues, the
degraded domain being what the pin step receives. -/
theorem pin_subdir_fatal_selinux_degrades (env : LoaderEnv)
    (m : bpf_map_def) (p : bpf_prog_def) (acquire : Nat → Except Int Int)
    (attrsOf : Nat → FdMapAttrs) (pinResult : Nat → Domain → Option Int)
    (s t : String)
    (hs : ∀ d ∈ AllDomains, s ≠ lookupPinSubdir d "")
    (ht : ∀ d ∈ AllDomains, t ≠ lookupSelinuxContext d "") :
    getDomainFromPinSubdir s = Domain.unrecognized ∧
    getDomainFromSelinuxContext t = Domain.unspecified ∧
    (m.zero = 0 → mapGatedOut env m = false → m.pin_subdir = s →
      createMapsLoop env acquire attrsOf pinResult [m] 0 =
        MapsResult.fail (-20)) ∧
    (progGatedOut env p = false → p.pin_subdir = s →
      progGateStep env (some p) = ProgGate.fail (-20)) ∧
    (∀ fd, m.zero = 0 → mapGatedOut env m = false → m.selinux_context = t →
      getDomainFromPinSubdir m.pin_subdir ≠ Domain.unrecognized →
      acquire 0 = Except.ok fd →
      mapMatchesExpectations env.pageSize env.kvers (attrsOf 0) m
        (effectiveMapType env m) = true →
      pinResult 0 Domain.unspecified = none →
      createMapsLoop env acquire attrsOf pinResult [m] 0 =
        MapsResult.ok [some fd]) := by
  have hfinds : AllDomains.find? (fun d => s == lookupPinSubdir d "") = none := by
    rw [List.find?_eq_none]
    intro d hd
    simp only [beq_iff_eq]
    exact hs d hd
  have hfindt : AllDomains.find?
      (fun d => t == lookupSelinuxContext d "") = none := by
    rw [List.find?_eq_none]
    intro d hd
    simp only [beq_iff_eq]
    exact ht d hd
  have h1 : getDomainFromPinSubdir s = Domain.unrecognized := by
    unfold getDomainFromPinSubdir
    rw [hfinds]
  have h2 : getDomainFromSelinuxContext t = Domain.unspecified := by
    unfold getDomainFromSelinuxContext
    rw [hfindt]
  refine ⟨h1, h2, ?_, ?_, ?_⟩
  · intro hz hg hpin
    simp only [createMapsLoop]
    rw [if_neg (by simp [hz]), if_neg (by simp [hg]), if_pos (by rw [hpin, h1])]
  · intro hg hpin
    simp only [progGateStep]
    rw [if_neg (by simp [hg]), if_pos (by rw [hpin, h1])]
  · intro fd hz hg hsel hpd hacq hmm hpinres
    simp only [createMapsLoop, hacq, hmm]
    rw [if_neg (by simp [hz]), if_neg (by simp [hg]), if_neg hpd]
    have hseldom : getDomainFromSelinuxContext m.selinux_context =
        Domain.unspecified := by rw [hsel, h2]
    simp [hseldom, hpinres]

/-- Claim C7, witness: a map and a program carrying the unmatched
pin_subdir token are rejected with -ENOTDIR, while a map carrying an
unmatched selinux_context token is processed to completion. -/
theorem pin_subdir_fatal_selinux_degrades_witness :
    createMapsLoop envSample acquireSample attrsOfMatch pinSample
      [mapBadPinSample] 0 = MapsResult.fail (-20) ∧
    progGateStep envSample (some progBadPinSample) = ProgGate.fail (-20) ∧
    createMapsLoop envSample acquireSample attrsOfMatch pinSample
      [mapSelinuxSample] 0 = MapsResult.ok [some 5] :=
  ⟨(pin_subdir_fatal_selinux_degrades envSample mapBadPinSample
      progBadPinSample acquireSample attrsOfMatch pinSample
      "bogus/" "bogus_ctx" (by decide) (by decide)).2.2.1 rfl (by decide) rfl,
   (pin_subdir_fatal_selinux_degrades envSample mapBadPinSample
      progBadPinSample acquireSample attrsOfMatch pinSample
      "bogus/" "bogus_ctx" (by decide) (by decide)).2.2.2.1 (by decide) rfl,
   (pin_subdir_fatal_selinux_degrades envSample mapSelinuxSample
      progBadPinSample acquireSample attrsOfMatch pinSample
      "bogus/" "bogus_ctx" (by decide) (by decide)).2.2.2.2 5 rfl (by decide)
     rfl (by decide) rfl (by decide) rfl⟩

/-- Claim C4: for every relocation record processed by applyMapRelo, the
targeted instruction index is r_offset divided by the eight-byte
instruction size; when that instruction carries the 64-bit immediate load
opcode, its immediate is rewritten to the descriptor of the first map
whose symbol name equals the name of symbol ELF64_R_SYM(r_info) and its
source register becomes the pseudo-map-fd tag, all other fields and
instructions staying unchanged; for any other opcode the record is
skipped and the instruction stream is unchanged. -/
theorem applyMapRelo_record_spec (symNameOf : Nat → Option String)
    (mapNames : List String) (mapFds : List Int) (insns : List BpfInsn)
    (rest : List Elf64_Rel) (r : Elf64_Rel) (symName : String) (j : Nat)
    (insn : BpfInsn)
    (hsym : symNameOf (ELF64_R_SYM r.r_info) = some symName)
    (hj : mapNames.findIdx? (fun n => n == symName) = some j)
    (hi : insns.get? (r.r_offset / sizeof_bpf_insn) = some insn) :
    (insn.code = BPF_LD_IMM_DW →
      applyMapReloRecords symNameOf mapNames mapFds insns (r :: rest) =
        applyMapReloRecords symNameOf mapNames mapFds
          (insns.set (r.r_offset / sizeof_bpf_insn)
            { insn with imm := mapFds.getD j (-1),
                        src_reg := BPF_PSEUDO_MAP_FD }) rest) ∧
    (insn.code ≠ BPF_LD_IMM_DW →
      applyMapReloRecords symNameOf mapNames mapFds insns (r :: rest) =
        applyMapReloRecords symNameOf mapNames mapFds insns rest) := by
  constructor
  · intro hc
    simp only [applyMapReloRecords, hsym, hj, applyRelo, hi]
    rw [if_neg (by simp [hc])]
  · intro hc
    simp only [applyMapReloRecords, hsym, hj, applyRelo, hi]
    rw [if_pos hc]

/-- Claim C4, witness: a record at byte offset 8 whose symbol resolves to
the single map rewrites instruction 1, a 64-bit immediate load, to carry
immediate 7 and the pseudo-map-fd source register, leaving instruction 0
untouched. -/
theorem applyMapRelo_record_spec_witness :
    applyMapReloRecords symNameSample ["mapA"] [7]
      [insnOther, insnLdImmDw] [relSample] =
      [insnOther,
       { code := 24, dst_reg := 1, src_reg := 1, off := 0, imm := 7 }] :=
  ((applyMapRelo_record_spec symNameSample ["mapA"] [7]
      [insnOther, insnLdImmDw] [] relSample "mapA" 0 insnLdImmDw
      (by decide) (by decide) (by decide)).1 rfl).trans (by decide)

end NetBpfLoad
